import Mathlib

/-!
Shallow embedding of the Portfolio API backend (`src/main.py`, `src/schemas.py`).

Stored documents are modelled as association lists from string keys to a
`Value` type covering the shapes this application stores: strings, booleans,
lists of strings (tags, tech stacks, image URLs), string-to-string mappings
(links), datetimes (carried by their ISO-8601 rendering, the only thing the
code observes through `isoformat()`), store-assigned object identifiers
(carried by their `str()` rendering) and `None`.

The HTTP endpoints are modelled as pure functions of the document lists the
store would return; the document-store accessor (`database.py`, not part of
the sources) is treated per the spec as generic insert-one / find-all, so reads
become function arguments and writes become explicitly returned lists of
created documents.
-/

inductive Value where
  | vStr (s : String)
  | vBool (b : Bool)
  | vList (xs : List String)
  | vDict (m : List (String × String))
  | vDateTime (iso : String)
  | vObjId (oid : String)
  | vNone
deriving DecidableEq

abbrev Doc := List (String × Value)

/-- Python `d.get(k)` on a dict modelled as an association list (keys unique). -/
def dictGet (d : Doc) (k : String) : Option Value :=
  (d.find? (fun kv => kv.1 == k)).map (fun kv => kv.2)

/-- Python `d[k] = v`: overwrite in place if the key exists (keys of a dict
are unique, so replacing the first occurrence is exact), else append. -/
def dictInsert : Doc → String → Value → Doc
  | [], k, v => [(k, v)]
  | kv :: rest, k, v =>
    if kv.1 == k then (k, v) :: rest else kv :: dictInsert rest k v

/-- Python `str(v)` restricted to the value shapes the code ever passes to it:
the `_id` value (an object identifier) and entries of list/dict fields (already
strings).  Container and `None` renderings are simplified, they are never
reached by the application's data. -/
def pyStr : Value → String
  | .vStr s => s
  | .vBool b => cond b "True" "False"
  | .vList _ => "[...]"
  | .vDict _ => "\x7b...\x7d"
  | .vDateTime iso => iso
  | .vObjId oid => oid
  | .vNone => "None"

/-- Python truthiness of a stored value (`bool(v)`). -/
def pyTruthy : Value → Bool
  | .vStr s => !(s == "")
  | .vBool b => b
  | .vList xs => !xs.isEmpty
  | .vDict m => !m.isEmpty
  | .vDateTime _ => true
  | .vObjId _ => true
  | .vNone => false

/-- Python slice `s[:n]` (by code points). -/
def strTake (n : Nat) (s : String) : String := ⟨s.data.take n⟩

/-- Python `s.lower()` (ASCII case folding, as in Lean's `Char.toLower`). -/
def strLower (s : String) : String := ⟨s.data.map Char.toLower⟩

/-- Python `sep.join(xs)` at the character-list level. -/
def pyJoinData (sep : List Char) : List (List Char) → List Char
  | [] => []
  | [x] => x
  | x :: xs => x ++ sep ++ pyJoinData sep xs

/-- Python `sep.join(xs)`. -/
def pyJoin (sep : String) (xs : List String) : String :=
  ⟨pyJoinData sep.data (xs.map String.data)⟩

/-- Python `s.strip()`: drop leading and trailing whitespace. -/
def pyStrip (s : String) : String :=
  ⟨(s.data.dropWhile Char.isWhitespace).rdropWhile Char.isWhitespace⟩

/-- Splitter underlying Python `s.split()` with no argument: cut at every
whitespace character (empty pieces arise at whitespace runs and are filtered
by `pySplitWs`). -/
def wsSplitGo : List Char → List Char → List (List Char)
  | [], acc => [acc.reverse]
  | c :: cs, acc =>
    if c.isWhitespace then acc.reverse :: wsSplitGo cs []
    else wsSplitGo cs (c :: acc)

/-- Python `s.split()`: whitespace-separated words, empties dropped. -/
def pySplitWs (s : String) : List String :=
  ((wsSplitGo s.data []).map (fun l => String.mk l)).filter (fun t => !(t == ""))

/-- Is `needle` an initial segment of `hay`? -/
def listIsPrefixOf : List Char → List Char → Bool
  | [], _ => true
  | _ :: _, [] => false
  | a :: as, b :: bs => a == b && listIsPrefixOf as bs

/-- Does `needle` occur contiguously inside `hay`? -/
def listIsSubstr (needle : List Char) : List Char → Bool
  | [] => needle.isEmpty
  | c :: rest => listIsPrefixOf needle (c :: rest) || listIsSubstr needle rest

/-- Python `t in text` on strings: substring containment. -/
def strContains (hay t : String) : Bool := listIsSubstr t.data hay.data

/-- The loop body of `serialize_doc`: one key/value pair written into `out`. -/
def serializeStep (out : Doc) (kv : String × Value) : Doc :=
  if kv.1 = "_id" then dictInsert out "id" (Value.vStr (pyStr kv.2))
  else
    match kv.2 with
    | Value.vDateTime iso => dictInsert out kv.1 (Value.vStr iso)
    | v => dictInsert out kv.1 v

/-- Function `serialize_doc` from `src/main.py`: rename `_id` to `id` (stringified),
render values having `isoformat` (datetimes) as their ISO-8601 string, pass
everything else through. -/
def serialize_doc (doc : Doc) : Doc :=
  doc.foldl serializeStep []

/-- Spec-side description of what `serialize_doc` does to a single key/value
pair, used to compare the fold against a plain `map`. -/
def serializeEntry (kv : String × Value) : String × Value :=
  if kv.1 = "_id" then ("id", Value.vStr (pyStr kv.2))
  else
    match kv.2 with
    | Value.vDateTime iso => (kv.1, Value.vStr iso)
    | v => (kv.1, v)

/-- The sort key `x.get("created_at", "")` used by the listing endpoints
(applied after serialization, so a present value is a string for every
document this application stores; a non-string value would make Python's
comparison raise and is read as `""` here, unreachable for app data). -/
def createdKey (d : Doc) : String :=
  match dictGet d "created_at" with
  | some (Value.vStr s) => s
  | some _ => ""
  | none => ""

/-- Truthiness of `x.get("featured", False)` in the projects sort key. -/
def featuredKey (d : Doc) : Bool :=
  match dictGet d "featured" with
  | some v => pyTruthy v
  | none => false

/-- Endpoint `GET /blog`: serialize, then stable sort descending by `created_at`
(string comparison, missing field as `""`).  Python's `reverse=True` sort is
descending and keeps ties in original order, which is exactly `mergeSort`
with the reflexive comparator below. -/
def list_blog_posts (docs : List Doc) : List Doc :=
  (docs.map serialize_doc).mergeSort (fun a b => decide (createdKey b ≤ createdKey a))

/-- Endpoint `GET /case-studies`: same sort as `GET /blog`. -/
def list_case_studies (docs : List Doc) : List Doc :=
  (docs.map serialize_doc).mergeSort (fun a b => decide (createdKey b ≤ createdKey a))

/-- The ascending lexicographic comparison on the projects sort key
`(not featured, created_at)` (Booleans with `False < True`). -/
def projLe (a b : Doc) : Bool :=
  (featuredKey a && !featuredKey b) ||
    ((featuredKey a == featuredKey b) && decide (createdKey a ≤ createdKey b))

/-- Endpoint `GET /projects`: serialize, then stable sort ascending by
`(not featured, created_at)`. -/
def list_projects (docs : List Doc) : List Doc :=
  (docs.map serialize_doc).mergeSort projLe

/-- The inner helper `fetch_titles` of `assistant_chat`: serialize each
document and attach a `snippet` built from the given fields (list fields are
comma-joined, dict fields rendered `k: v`, plain strings kept; other values
skipped), each part sliced to 200 characters, empty parts dropped, joined by
the bullet glyph. -/
def fetch_titles (docs : List Doc) (fields : List String) : List Doc :=
  docs.map (fun d =>
    let s := serialize_doc d
    let snippet_parts := fields.filterMap (fun f =>
      match dictGet s f with
      | some (Value.vList xs) => some (pyJoin ", " xs)
      | some (Value.vDict m) => some (pyJoin ", " (m.map (fun kv => kv.1 ++ ": " ++ kv.2)))
      | some (Value.vStr v) => some v
      | _ => none)
    dictInsert s "snippet"
      (Value.vStr (pyJoin " • "
        ((snippet_parts.filter (fun p => !(p == ""))).map (strTake 200)))))

/-- Corpus slice `fetch_titles("blogpost", ["title", "tags", "content"])[:10]`. -/
def chatBlogs (docs : List Doc) : List Doc :=
  (fetch_titles docs ["title", "tags", "content"]).take 10

/-- Corpus slice `fetch_titles("casestudy", ["title", "summary", "impact"])[:10]`. -/
def chatCases (docs : List Doc) : List Doc :=
  (fetch_titles docs ["title", "summary", "impact"]).take 10

/-- Corpus slice `fetch_titles("project", ["title", "description", "tech_stack"])[:10]`. -/
def chatProjs (docs : List Doc) : List Doc :=
  (fetch_titles docs ["title", "description", "tech_stack"]).take 10

/-- Assembly `corpus = blogs + cases + projs`. -/
def chatCorpus (b c p : List Doc) : List Doc := chatBlogs b ++ chatCases c ++ chatProjs p

/-- Tokens `\x7bt.lower() for t in user_msg.split() if len(t) > 2\x7d`: as a duplicate-free
list (set iteration order is irrelevant, only membership and cardinality are
ever used). -/
def msgTokens (msg : String) : List String :=
  (((pySplitWs msg).filter (fun t => t.length > 2)).map strLower).dedup

/-- Text `(item.get("title", "") + " " + item.get("snippet", "")).lower()`.
A present non-string value would make Python's `+` raise; it is read as `""`
here and is unreachable for this application's items (titles are schema
strings, snippets are built strings). -/
def getStrD (item : Doc) (k : String) : String :=
  match dictGet item k with
  | some (Value.vStr s) => s
  | some _ => ""
  | none => ""

def itemText (item : Doc) : String :=
  strLower ⟨(getStrD item "title").data ++ [' '] ++ (getStrD item "snippet").data⟩

/-- Scoring `score(item)`: how many distinct tokens occur as substrings of the item's
lowercased title-plus-snippet text. -/
def chatScore (msg : String) (item : Doc) : Nat :=
  ((msgTokens msg).filter (fun t => strContains (itemText item) t)).length

/-- Ranking `sorted(corpus, key=score, reverse=True)`: descending by score, stable
(Python keeps ties in original order under `reverse=True`). -/
def scoreSorted (msg : String) (corpus : List Doc) : List Doc :=
  corpus.mergeSort (fun a b => decide (chatScore msg b ≤ chatScore msg a))

/-- Selection `best = sorted(corpus, key=score, reverse=True)[:3]`. -/
def bestOf (msg : String) (corpus : List Doc) : List Doc :=
  (scoreSorted msg corpus).take 3

/-- The fixed generic promotional reply. -/
def genericReply : String :=
  "Thanks for reaching out! I build production-grade web apps, AI features, and clean UI systems. Ask about projects, case studies, or share your idea and I\u2019ll outline an approach."

/-- First line of the highlights reply. -/
def headerLine : String := "Here are some highlights that match what you asked:"

/-- Fixed closing line of the highlights reply. -/
def closingLine : String :=
  "Want a deeper dive or a quick estimate? I can outline a plan step-by-step."

/-- Line `f"- {item.get('title', 'Untitled')}: {item.get('snippet', '')}"` (an
f-string renders any non-string value via `str`, hence `pyStr`). -/
def pyGetStr (item : Doc) (k dflt : String) : String :=
  match dictGet item k with
  | some v => pyStr v
  | none => dflt

def itemLine (item : Doc) : String :=
  "- " ++ pyGetStr item "title" "Untitled" ++ ": " ++ pyGetStr item "snippet" ""

/-- The reply construction of `assistant_chat` after the corpus is built. -/
def buildReply (msg : String) (corpus : List Doc) : String :=
  let best := bestOf msg corpus
  if best.isEmpty then genericReply
  else pyJoin "\n" (headerLine :: (best.map itemLine ++ [closingLine]))

/-- Modelled from the spec: a Chat record as persisted by `create_document`
(`database.py` is not among the sources; the spec describes the accessor as a
generic insert-one, so a created document is just its role/message payload). -/
structure ChatDoc where
  role : String
  message : String
deriving DecidableEq

/-- The HTTP 400 error raised for empty messages. -/
inductive HttpError where
  | badRequest (detail : String)
deriving DecidableEq

/-- Endpoint `POST /assistant/chat`: returns the list of Chat documents created (in
creation order) together with the response — an error for blank messages,
otherwise the reply text. -/
def assistant_chat (rawMsg : String) (b c p : List Doc) :
    List ChatDoc × Except HttpError String :=
  let userMsg := pyStrip rawMsg
  if userMsg = "" then ([], Except.error (HttpError.badRequest "Empty message"))
  else
    let reply := buildReply userMsg (chatCorpus b c p)
    ([⟨"user", userMsg⟩, ⟨"assistant", reply⟩], Except.ok reply)

/-- Modelled from the spec: the state of the store handle `db` as observed by
`GET /test` (`database.py` is not among the sources).  `noDb` is `db is None`;
`raising` is a handle whose first touch raises (caught by the outer handler);
`connected` carries the optional `name` attribute and the outcome of
`list_collection_names()`. -/
inductive DbState where
  | noDb
  | raising (msg : String)
  | connected (nm : Option String) (colls : Except String (List String))

structure TestResponse where
  backend : String
  database : String
  database_url : Option String
  database_name : Option String
  connection_status : String
  collections : List String

/-- Endpoint `GET /test` from `src/main.py`, as a total function of the environment
flag `DATABASE_URL`-is-set and the store state: the handler catches every
store failure, so totality of this function mirrors `never raises`. -/
def test_database (urlSet : Bool) (st : DbState) : TestResponse :=
  match st with
  | DbState.noDb =>
    ⟨"✅ Running", "⚠️  Available but not initialized", none, none,
      "Not Connected", []⟩
  | DbState.raising msg =>
    ⟨"✅ Running", "❌ Error: " ++ strTake 50 msg, none, none,
      "Not Connected", []⟩
  | DbState.connected nm colls =>
    let url := if urlSet then "✅ Set" else "❌ Not Set"
    let dbName := match nm with | some n => n | none => "✅ Connected"
    match colls with
    | Except.ok l =>
      ⟨"✅ Running", "✅ Connected & Working", some url, some dbName,
        "Connected", l.take 10⟩
    | Except.error e =>
      ⟨"✅ Running", "⚠️  Connected but Error: " ++ strTake 50 e,
        some url, some dbName, "Connected", []⟩

/-! ## Helper lemmas -/

theorem aux_dictGet_insert (d : Doc) (k : String) (v : Value) :
    dictGet (dictInsert d k v) k = some v := by
  induction d with
  | nil => simp [dictGet, dictInsert]
  | cons kv rest ih =>
    by_cases hk : kv.1 == k
    · simp [dictInsert, hk, dictGet]
    · simp only [dictInsert, hk, if_false, Bool.false_eq_true]
      simpa [dictGet, List.find?_cons, hk] using ih

theorem aux_dictInsert_not_mem (d : Doc) (k : String) (v : Value)
    (h : k ∉ d.map Prod.fst) : dictInsert d k v = d ++ [(k, v)] := by
  induction d with
  | nil => rfl
  | cons kv rest ih =>
    simp only [List.map_cons, List.mem_cons] at h
    push_neg at h
    have hk : (kv.1 == k) = false := by
      simp only [beq_eq_false_iff_ne, ne_eq]
      exact fun e => h.1 e.symm
    simp [dictInsert, hk, ih h.2]

theorem aux_descBy_trans {α κ : Type} [LinearOrder κ] (key : α → κ) (a b c : α)
    (h1 : decide (key b ≤ key a) = true) (h2 : decide (key c ≤ key b) = true) :
    decide (key c ≤ key a) = true := by
  simp only [decide_eq_true_eq] at h1 h2 ⊢
  exact le_trans h2 h1

theorem aux_descBy_total {α κ : Type} [LinearOrder κ] (key : α → κ) (a b : α) :
    (decide (key b ≤ key a) || decide (key a ≤ key b)) = true := by
  simp only [Bool.or_eq_true, decide_eq_true_eq]
  exact le_total (key b) (key a)

theorem aux_projLe_trans (a b c : Doc) (h1 : projLe a b = true)
    (h2 : projLe b c = true) : projLe a c = true := by
  simp only [projLe, Bool.or_eq_true, Bool.and_eq_true, beq_iff_eq,
    Bool.not_eq_true', decide_eq_true_eq] at h1 h2 ⊢
  rcases h1 with ⟨ha, hb⟩ | ⟨hab, hs⟩
  · rcases h2 with ⟨hb2, hc⟩ | ⟨hbc, _⟩
    · exact absurd hb2 (by simp [hb])
    · exact Or.inl ⟨ha, hbc ▸ hb⟩
  · rcases h2 with ⟨hb2, hc⟩ | ⟨hbc, hs2⟩
    · exact Or.inl ⟨hab ▸ hb2, hc⟩
    · exact Or.inr ⟨hab.trans hbc, hs.trans hs2⟩

theorem aux_projLe_total (a b : Doc) : (projLe a b || projLe b a) = true := by
  simp only [projLe, Bool.or_eq_true, Bool.and_eq_true, beq_iff_eq,
    Bool.not_eq_true', decide_eq_true_eq]
  cases hA : featuredKey a <;> cases hB : featuredKey b
  · rcases le_total (createdKey a) (createdKey b) with h | h
    · exact Or.inl (Or.inr ⟨rfl, h⟩)
    · exact Or.inr (Or.inr ⟨rfl, h⟩)
  · exact Or.inr (Or.inl ⟨rfl, rfl⟩)
  · exact Or.inl (Or.inl ⟨rfl, rfl⟩)
  · rcases le_total (createdKey a) (createdKey b) with h | h
    · exact Or.inl (Or.inr ⟨rfl, h⟩)
    · exact Or.inr (Or.inr ⟨rfl, h⟩)

theorem aux_strip_of_blank (s : String) (h : ∀ ch ∈ s.data, ch.isWhitespace) :
    pyStrip s = "" := by
  unfold pyStrip
  have h1 : s.data.dropWhile Char.isWhitespace = [] :=
    List.dropWhile_eq_nil_iff.mpr h
  rw [h1, List.rdropWhile_nil]

theorem aux_mem_dropWhile (p : Char → Bool) (x : Char) :
    ∀ l : List Char, x ∈ l → ¬ p x = true → x ∈ l.dropWhile p := by
  intro l
  induction l with
  | nil => intro hx _; exact absurd hx (List.not_mem_nil x)
  | cons a t ih =>
    intro hx hpx
    rw [List.dropWhile_cons]
    by_cases hpa : p a = true
    · rw [if_pos hpa]
      rcases List.mem_cons.mp hx with rfl | ht
      · exact absurd hpa hpx
      · exact ih ht hpx
    · rw [if_neg hpa]
      exact hx

theorem aux_strip_ne_of_not_blank (s : String)
    (h : ∃ ch ∈ s.data, ¬ch.isWhitespace) : pyStrip s ≠ "" := by
  obtain ⟨x, hx, hpx⟩ := h
  have hxm : x ∈ s.data.dropWhile Char.isWhitespace :=
    aux_mem_dropWhile Char.isWhitespace x s.data hx (by simpa using hpx)
  intro heq
  have hdata : ((s.data.dropWhile Char.isWhitespace).rdropWhile Char.isWhitespace) = [] := by
    have := congrArg String.data heq
    simpa [pyStrip] using this
  have := List.rdropWhile_eq_nil_iff.mp hdata x hxm
  exact hpx (by simpa using this)

theorem aux_serializeEntry_fst (kv : String × Value) :
    (serializeEntry kv).1 = if kv.1 = "_id" then "id" else kv.1 := by
  obtain ⟨k, v⟩ := kv
  by_cases h : k = "_id" <;> cases v <;> simp [serializeEntry, h]

theorem aux_serializeStep_eq (out : Doc) (kv : String × Value) :
    serializeStep out kv = dictInsert out (serializeEntry kv).1 (serializeEntry kv).2 := by
  obtain ⟨k, v⟩ := kv
  by_cases h : k = "_id" <;> cases v <;> simp [serializeStep, serializeEntry, h]

theorem aux_serialize_foldl (doc : Doc) : ∀ out : Doc,
    (∀ kv ∈ doc, (serializeEntry kv).1 ∉ out.map Prod.fst) →
    ((doc.map serializeEntry).map Prod.fst).Nodup →
    List.foldl serializeStep out doc = out ++ doc.map serializeEntry := by
  induction doc with
  | nil => intro out _ _; simp
  | cons kv rest ih =>
    intro out hdisj hnd
    rw [List.foldl_cons, aux_serializeStep_eq,
      aux_dictInsert_not_mem out _ _ (hdisj kv (List.mem_cons_self kv rest))]
    simp only [List.map_cons, List.nodup_cons] at hnd
    have hrest : ∀ kv2 ∈ rest, (serializeEntry kv2).1 ∉
        (out ++ [((serializeEntry kv).1, (serializeEntry kv).2)]).map Prod.fst := by
      intro kv2 h2
      simp only [List.map_append, List.mem_append, List.map_cons, List.map_nil,
        List.mem_singleton, not_or]
      refine ⟨hdisj kv2 (List.mem_cons_of_mem kv h2), ?_⟩
      intro hkeq
      exact hnd.1 (hkeq ▸ List.mem_map_of_mem Prod.fst
        (List.mem_map_of_mem serializeEntry h2))
    rw [ih (out ++ [((serializeEntry kv).1, (serializeEntry kv).2)]) hrest hnd.2]
    simp

/-! ## Claim theorems -/

/-- C1: `GET /projects` returns the serialized documents sorted with featured
items first (featured true before featured false) and, within each featured
group, ascending by the serialized creation timestamp; a document missing
`created_at` sorts with the empty string. -/
theorem projects_listing_sorted (docs : List Doc) :
    (list_projects docs).Perm (docs.map serialize_doc) ∧
    (list_projects docs).Pairwise (fun a b =>
      (featuredKey a = true ∧ featuredKey b = false) ∨
      (featuredKey a = featuredKey b ∧ createdKey a ≤ createdKey b)) ∧
    (∀ d : Doc, dictGet d "created_at" = none → createdKey d = "") := by
  refine ⟨List.mergeSort_perm _ _, ?_, ?_⟩
  · have h := List.sorted_mergeSort
      (fun a b c h1 h2 => aux_projLe_trans a b c h1 h2)
      (fun a b => aux_projLe_total a b) (docs.map serialize_doc)
    refine h.imp ?_
    intro a b hab
    simpa [projLe, Bool.or_eq_true, Bool.and_eq_true, beq_iff_eq,
      Bool.not_eq_true', decide_eq_true_eq] using hab
  · intro d h
    simp [createdKey, h]

/-- C2: `GET /blog` and `GET /case-studies` return the serialized documents
sorted descending by string comparison on the serialized `created_at` field,
a missing field being treated as the empty string. -/
theorem blog_case_listing_sorted_desc (bdocs cdocs : List Doc) :
    (list_blog_posts bdocs).Perm (bdocs.map serialize_doc) ∧
    (list_blog_posts bdocs).Pairwise (fun a b => createdKey b ≤ createdKey a) ∧
    (list_case_studies cdocs).Perm (cdocs.map serialize_doc) ∧
    (list_case_studies cdocs).Pairwise (fun a b => createdKey b ≤ createdKey a) ∧
    (∀ d : Doc, dictGet d "created_at" = none → createdKey d = "") := by
  refine ⟨List.mergeSort_perm _ _, ?_, List.mergeSort_perm _ _, ?_, ?_⟩
  · have h := List.sorted_mergeSort
      (fun a b c h1 h2 => aux_descBy_trans createdKey a b c h1 h2)
      (fun a b => aux_descBy_total createdKey a b) (bdocs.map serialize_doc)
    exact h.imp (fun hab => by simpa using hab)
  · have h := List.sorted_mergeSort
      (fun a b c h1 h2 => aux_descBy_trans createdKey a b c h1 h2)
      (fun a b => aux_descBy_total createdKey a b) (cdocs.map serialize_doc)
    exact h.imp (fun hab => by simpa using hab)
  · intro d h
    simp [createdKey, h]

/-- C9: serialization maps `_id` to its string form under key `id`, converts
every datetime value (the values exposing `isoformat`) to its ISO-8601
string, and passes every other key and value through unchanged, for any
stored document (whose keys are unique and which, being built from the
schemas plus the store-assigned `_id`, has no `id` key of its own). -/
theorem serialize_doc_correct (doc : Doc)
    (hnd : (doc.map Prod.fst).Nodup) (hid : "id" ∉ doc.map Prod.fst) :
    serialize_doc doc = doc.map serializeEntry ∧
    (∀ v, serializeEntry ("_id", v) = ("id", Value.vStr (pyStr v))) ∧
    (∀ k iso, k ≠ "_id" → serializeEntry (k, Value.vDateTime iso) = (k, Value.vStr iso)) ∧
    (∀ kv : String × Value, kv.1 ≠ "_id" → (∀ iso, kv.2 ≠ Value.vDateTime iso) →
      serializeEntry kv = kv) := by
  refine ⟨?_, ?_, ?_, ?_⟩
  · have hmap : (doc.map serializeEntry).map Prod.fst =
        (doc.map Prod.fst).map (fun k => if k = "_id" then "id" else k) := by
      rw [List.map_map, List.map_map]
      exact List.map_congr_left (fun kv _ => aux_serializeEntry_fst kv)
    have hkeys : ((doc.map serializeEntry).map Prod.fst).Nodup := by
      rw [hmap]
      refine List.Nodup.map_on ?_ hnd
      intro x hx y hy hxy
      by_cases hx1 : x = "_id" <;> by_cases hy1 : y = "_id" <;>
        simp only [hx1, hy1, if_true, if_false, reduceIte] at hxy
      · rw [hx1, hy1]
      · exact absurd (hxy ▸ hy) (by simpa [hxy] using hid)
      · exact absurd (hxy ▸ hx) (by simpa [← hxy] using hid)
      · exact hxy
    have := aux_serialize_foldl doc []
      (by intro kv _; simp) hkeys
    simpa [serialize_doc] using this
  · intro v
    simp [serializeEntry]
  · intro k iso hk
    simp [serializeEntry, hk]
  · rintro ⟨k, v⟩ h1 h2
    cases v <;> simp [serializeEntry, h1]
    exact absurd rfl (h2 _)

def w9doc : Doc :=
  [("_id", Value.vObjId "507f1f77"), ("title", Value.vStr "Site"),
   ("created_at", Value.vDateTime "2024-05-01T10:00:00"),
   ("featured", Value.vBool true)]

theorem serialize_doc_correct_witness :
    (w9doc.map Prod.fst).Nodup ∧ ("id" ∉ w9doc.map Prod.fst) ∧
    serialize_doc w9doc =
      [("id", Value.vStr "507f1f77"), ("title", Value.vStr "Site"),
       ("created_at", Value.vStr "2024-05-01T10:00:00"),
       ("featured", Value.vBool true)] := by
  refine ⟨by decide, by decide, ?_⟩
  rw [(serialize_doc_correct w9doc (by decide) (by decide)).1]
  rfl

theorem aux_dropWhile_head_not (p : Char → Bool) (l : List Char) (a : Char)
    (h : (l.dropWhile p).head? = some a) : p a = false := by
  have h2 := List.head?_dropWhile_not p l
  rw [h] at h2
  exact h2

theorem aux_strip_head (s : String) (a : Char)
    (h : (pyStrip s).data.head? = some a) : a.isWhitespace = false := by
  have hdata : (pyStrip s).data =
      (s.data.dropWhile Char.isWhitespace).rdropWhile Char.isWhitespace := rfl
  rw [hdata] at h
  obtain ⟨t, ht⟩ :=
    List.rdropWhile_prefix Char.isWhitespace (s.data.dropWhile Char.isWhitespace)
  have hm : (s.data.dropWhile Char.isWhitespace).head? = some a := by
    rw [← ht, List.head?_append, h]
    rfl
  exact aux_dropWhile_head_not Char.isWhitespace s.data a hm

theorem aux_strip_last (s : String) (a : Char)
    (h : (pyStrip s).data.getLast? = some a) : a.isWhitespace = false := by
  have hne : (pyStrip s).data ≠ [] := by
    intro hnil
    rw [hnil] at h
    simp at h
  have h2 : (pyStrip s).data.getLast? = some ((pyStrip s).data.getLast hne) :=
    List.getLast?_eq_getLast _ hne
  rw [h] at h2
  have hlast := List.rdropWhile_last_not Char.isWhitespace
    (s.data.dropWhile Char.isWhitespace) hne
  have ha : a = (pyStrip s).data.getLast hne := Option.some.inj h2
  rw [ha]
  simpa using hlast

/-- C3: `POST /assistant/chat` with an empty or all-whitespace message fails
with HTTP 400 and creates no Chat documents (the first component lists every
document written to the chat collection). -/
theorem chat_rejects_blank (raw : String) (b c p : List Doc)
    (h : ∀ ch ∈ raw.data, ch.isWhitespace) :
    assistant_chat raw b c p =
      ([], Except.error (HttpError.badRequest "Empty message")) := by
  simp [assistant_chat, aux_strip_of_blank raw h]

theorem chat_rejects_blank_witness :
    (∀ ch ∈ ("  \t ".data), ch.isWhitespace) ∧
    assistant_chat "  \t " [] [] [] =
      ([], Except.error (HttpError.badRequest "Empty message")) :=
  ⟨by decide, chat_rejects_blank "  \t " [] [] [] (by decide)⟩

/-- C4: `POST /assistant/chat` with a non-whitespace message creates exactly
two Chat documents, first role `user` holding the (stripped) inbound message,
then role `assistant` holding the reply text that is also returned. -/
theorem chat_creates_two_docs (raw : String) (b c p : List Doc)
    (h : ∃ ch ∈ raw.data, ¬ch.isWhitespace) :
    ∃ reply, assistant_chat raw b c p =
      ([⟨"user", pyStrip raw⟩, ⟨"assistant", reply⟩], Except.ok reply) := by
  refine ⟨buildReply (pyStrip raw) (chatCorpus b c p), ?_⟩
  simp [assistant_chat, aux_strip_ne_of_not_blank raw h]

theorem chat_creates_two_docs_witness :
    (∃ ch ∈ (" hi ".data), ¬ch.isWhitespace) ∧ pyStrip " hi " = "hi" ∧
    (∃ reply, assistant_chat " hi " [] [] [] =
      ([⟨"user", pyStrip " hi "⟩, ⟨"assistant", reply⟩], Except.ok reply)) :=
  ⟨by decide, by decide, chat_creates_two_docs " hi " [] [] [] (by decide)⟩

/-- C10: for accepted chat requests the persisted `user` document (and the
message fed to the reply builder) is the whitespace-stripped form of the
submitted message: the stripped text starts and ends with non-whitespace. -/
theorem chat_user_doc_is_stripped (raw : String) (b c p : List Doc)
    (h : ∃ ch ∈ raw.data, ¬ch.isWhitespace) :
    (assistant_chat raw b c p).1.head? = some ⟨"user", pyStrip raw⟩ ∧
    (assistant_chat raw b c p).2 =
      Except.ok (buildReply (pyStrip raw) (chatCorpus b c p)) ∧
    (∀ a, (pyStrip raw).data.head? = some a → a.isWhitespace = false) ∧
    (∀ a, (pyStrip raw).data.getLast? = some a → a.isWhitespace = false) := by
  refine ⟨?_, ?_, fun a ha => aux_strip_head raw a ha,
    fun a ha => aux_strip_last raw a ha⟩
  · simp [assistant_chat, aux_strip_ne_of_not_blank raw h]
  · simp [assistant_chat, aux_strip_ne_of_not_blank raw h]

theorem chat_user_doc_is_stripped_witness :
    (∃ ch ∈ (" hi ".data), ¬ch.isWhitespace) ∧
    (assistant_chat " hi " [] [] []).1.head? = some ⟨"user", pyStrip " hi "⟩ ∧
    ('h').isWhitespace = false := by
  have H := chat_user_doc_is_stripped " hi " [] [] [] (by decide)
  exact ⟨by decide, H.1, H.2.2.1 'h' (by decide)⟩

theorem aux_fetch_titles_snippet (docs : List Doc) (fields : List String)
    (item : Doc) (h : item ∈ fetch_titles docs fields) :
    ∃ parts : List String,
      dictGet item "snippet" =
        some (Value.vStr (pyJoin " • " (parts.map (strTake 200)))) ∧
      ∀ s ∈ parts, s ≠ "" ∧ (strTake 200 s).length ≤ 200 := by
  rw [fetch_titles] at h
  obtain ⟨d, _, heq⟩ := List.mem_map.mp h
  subst heq
  refine ⟨(fields.filterMap (fun f =>
      match dictGet (serialize_doc d) f with
      | some (Value.vList xs) => some (pyJoin ", " xs)
      | some (Value.vDict m) => some (pyJoin ", " (m.map (fun kv => kv.1 ++ ": " ++ kv.2)))
      | some (Value.vStr v) => some v
      | _ => none)).filter (fun p => !(p == "")), ?_, ?_⟩
  · exact aux_dictGet_insert _ _ _
  · intro s hs
    refine ⟨by simpa using (List.mem_filter.mp hs).2, ?_⟩
    exact List.length_take_le 200 s.data

/-- C7: the chat corpus draws at most 10 items from each of the three content
collections, and every corpus item's snippet is a bullet-glyph join of the
collection's fixed field list, each part truncated to at most 200 characters
and empty parts dropped. -/
theorem chat_corpus_bounds (b c p : List Doc) :
    (chatBlogs b).length ≤ 10 ∧ (chatCases c).length ≤ 10 ∧
    (chatProjs p).length ≤ 10 ∧
    chatBlogs b = (fetch_titles b ["title", "tags", "content"]).take 10 ∧
    chatCases c = (fetch_titles c ["title", "summary", "impact"]).take 10 ∧
    chatProjs p = (fetch_titles p ["title", "description", "tech_stack"]).take 10 ∧
    (∀ item ∈ chatCorpus b c p, ∃ parts : List String,
      dictGet item "snippet" =
        some (Value.vStr (pyJoin " • " (parts.map (strTake 200)))) ∧
      ∀ s ∈ parts, s ≠ "" ∧ (strTake 200 s).length ≤ 200) := by
  refine ⟨List.length_take_le _ _, List.length_take_le _ _, List.length_take_le _ _,
    rfl, rfl, rfl, ?_⟩
  intro item hmem
  rcases List.mem_append.mp hmem with hbc | hp
  · rcases List.mem_append.mp hbc with hb | hc
    · exact aux_fetch_titles_snippet b _ item (List.take_subset _ _ hb)
    · exact aux_fetch_titles_snippet c _ item (List.take_subset _ _ hc)
  · exact aux_fetch_titles_snippet p _ item (List.take_subset _ _ hp)

def w7blog : Doc :=
  [("title", Value.vStr "Alpha"), ("tags", Value.vList ["x", "y"]),
   ("content", Value.vStr "Hello world")]

def w7item : Doc :=
  [("title", Value.vStr "Alpha"), ("tags", Value.vList ["x", "y"]),
   ("content", Value.vStr "Hello world"),
   ("snippet", Value.vStr "Alpha • x, y • Hello world")]

theorem chat_corpus_bounds_witness :
    (chatBlogs [w7blog]).length ≤ 10 ∧
    (∃ parts : List String,
      dictGet w7item "snippet" =
        some (Value.vStr (pyJoin " • " (parts.map (strTake 200)))) ∧
      ∀ s ∈ parts, s ≠ "" ∧ (strTake 200 s).length ≤ 200) := by
  have H := chat_corpus_bounds [w7blog] [] []
  exact ⟨H.1, H.2.2.2.2.2.2 w7item (by decide)⟩

/-- C8: `GET /test` is total for every store state (every store failure is
caught), its collection-name list is capped at 10 entries, and error texts
embed the exception message truncated to 50 characters. -/
theorem test_database_safe (u : Bool) (st : DbState) :
    (test_database u st).collections.length ≤ 10 ∧
    (test_database u st).backend = "✅ Running" ∧
    (∀ nm l, st = DbState.connected nm (Except.ok l) →
      (test_database u st).collections = l.take 10) ∧
    (∀ nm e, st = DbState.connected nm (Except.error e) →
      (test_database u st).database = "⚠️  Connected but Error: " ++ strTake 50 e ∧
      (strTake 50 e).length ≤ 50) ∧
    (∀ m, st = DbState.raising m →
      (test_database u st).database = "❌ Error: " ++ strTake 50 m ∧
      (strTake 50 m).length ≤ 50) := by
  refine ⟨?_, ?_, ?_, ?_, ?_⟩
  · cases st with
    | noDb => simp [test_database]
    | raising m => simp [test_database]
    | connected nm colls =>
      cases colls with
      | ok l => simp [test_database, List.length_take_le]
      | error e => simp [test_database]
  · cases st with
    | noDb => rfl
    | raising m => rfl
    | connected nm colls => cases colls <;> rfl
  · intro nm l hst
    subst hst
    rfl
  · intro nm e hst
    subst hst
    exact ⟨rfl, List.length_take_le 50 e.data⟩
  · intro m hst
    subst hst
    exact ⟨rfl, List.length_take_le 50 m.data⟩

theorem test_database_safe_witness :
    (test_database true (DbState.connected (some "portfolio")
        (Except.error "boom boom boom boom boom boom boom boom boom boom boom"))).database =
      "⚠️  Connected but Error: " ++
        strTake 50 "boom boom boom boom boom boom boom boom boom boom boom" ∧
    (test_database true (DbState.connected (some "portfolio")
        (Except.ok ["a", "b"]))).collections = ["a", "b"].take 10 := by
  refine ⟨((test_database_safe true (DbState.connected (some "portfolio")
      (Except.error "boom boom boom boom boom boom boom boom boom boom boom"))).2.2.2.1
      (some "portfolio") _ rfl).1, ?_⟩
  exact (test_database_safe true (DbState.connected (some "portfolio")
      (Except.ok ["a", "b"]))).2.2.1 (some "portfolio") ["a", "b"] rfl

theorem aux_pyJoinData_cons (sep x : List Char) (t : List (List Char))
    (h : t ≠ []) : pyJoinData sep (x :: t) = x ++ sep ++ pyJoinData sep t := by
  cases t with
  | nil => exact absurd rfl h
  | cons y ys => rfl

theorem aux_bestOf_ne_nil (msg : String) (corpus : List Doc)
    (h : corpus ≠ []) : bestOf msg corpus ≠ [] := by
  intro hnil
  rcases List.take_eq_nil_iff.mp hnil with h1 | h1
  · exact absurd h1 (by norm_num)
  · have hp : List.Perm (scoreSorted msg corpus) corpus := List.mergeSort_perm corpus
      (fun a b => decide (chatScore msg b ≤ chatScore msg a))
    rw [h1] at hp
    exact h hp.symm.eq_nil

theorem aux_buildReply_of_ne_nil (msg : String) (corpus : List Doc)
    (h : corpus ≠ []) :
    buildReply msg corpus =
      pyJoin "\n" (headerLine :: ((bestOf msg corpus).map itemLine ++ [closingLine])) := by
  have hbest := aux_bestOf_ne_nil msg corpus h
  simp [buildReply, List.isEmpty_iff, hbest]

theorem aux_buildReply_ne_generic (msg : String) (corpus : List Doc)
    (h : corpus ≠ []) : buildReply msg corpus ≠ genericReply := by
  intro heq
  have h1 : (buildReply msg corpus).data.head? = some 'H' := by
    rw [aux_buildReply_of_ne_nil msg corpus h]
    have hd : (pyJoin "\n"
        (headerLine :: ((bestOf msg corpus).map itemLine ++ [closingLine]))).data =
        pyJoinData "\n".data
          ((headerLine :: ((bestOf msg corpus).map itemLine ++ [closingLine])).map
            String.data) := rfl
    rw [hd, List.map_cons, aux_pyJoinData_cons _ _ _ (by simp)]
    rfl
  have h2 : genericReply.data.head? = some 'T' := rfl
  rw [heq, h2] at h1
  exact absurd h1 (by decide)

/-- C5: the assistant returns the fixed generic promotional reply exactly when
the assembled corpus is empty; on a non-empty corpus whose items all score
zero, it still replies with the "highlights" text over the first 3 items in
original fetch order. -/
theorem chat_generic_iff_empty_corpus (msg : String) (corpus : List Doc) :
    (buildReply msg corpus = genericReply ↔ corpus = []) ∧
    ((∀ item ∈ corpus, chatScore msg item = 0) → corpus ≠ [] →
      bestOf msg corpus = corpus.take 3 ∧
      buildReply msg corpus =
        pyJoin "\n" (headerLine :: ((corpus.take 3).map itemLine ++ [closingLine]))) := by
  constructor
  · constructor
    · intro heq
      by_contra hne
      exact aux_buildReply_ne_generic msg corpus hne heq
    · rintro rfl
      simp [buildReply, bestOf, scoreSorted]
  · intro hz hne
    have hpw : corpus.Pairwise
        (fun a b : Doc => decide (chatScore msg b ≤ chatScore msg a) = true) := by
      refine List.pairwise_of_forall_mem_list ?_
      intro a ha b hb
      simp [hz a ha, hz b hb]
    have hsorted : scoreSorted msg corpus = corpus :=
      List.mergeSort_of_sorted hpw
    have hbest : bestOf msg corpus = corpus.take 3 := by
      rw [bestOf, hsorted]
    refine ⟨hbest, ?_⟩
    rw [aux_buildReply_of_ne_nil msg corpus hne, hbest]

def w5corpus : List Doc := [[("title", Value.vStr "Za")], [("title", Value.vStr "Zb")]]

theorem chat_generic_iff_empty_corpus_witness :
    (∀ item ∈ w5corpus, chatScore "hello" item = 0) ∧ w5corpus ≠ [] ∧
    bestOf "hello" w5corpus = w5corpus.take 3 :=
  ⟨by decide, by decide,
    ((chat_generic_iff_empty_corpus "hello" w5corpus).2 (by decide) (by decide)).1⟩

/-- C6: the assistant tokenizes the message into the duplicate-free set of
lowercased whitespace-separated words longer than 2 characters, scores items
by how many distinct tokens occur as substrings of the lowercased
title-plus-snippet text, and selects the top 3 by descending score, ties kept
in fetch order (stable sort). -/
theorem chat_top3_selection (msg : String) (corpus : List Doc) :
    (msgTokens msg).Nodup ∧
    (∀ t, t ∈ msgTokens msg ↔
      ∃ w, w ∈ pySplitWs msg ∧ w.length > 2 ∧ t = strLower w) ∧
    (∀ item, chatScore msg item =
      ((msgTokens msg).filter (fun t => strContains (itemText item) t)).length) ∧
    List.Perm (scoreSorted msg corpus) corpus ∧
    (scoreSorted msg corpus).Pairwise
      (fun a b => chatScore msg b ≤ chatScore msg a) ∧
    (∀ a b : Doc, [a, b].Sublist corpus → chatScore msg a = chatScore msg b →
      [a, b].Sublist (scoreSorted msg corpus)) ∧
    bestOf msg corpus = (scoreSorted msg corpus).take 3 ∧
    List.Perm corpus (bestOf msg corpus ++ (scoreSorted msg corpus).drop 3) ∧
    (∀ a ∈ bestOf msg corpus, ∀ b ∈ (scoreSorted msg corpus).drop 3,
      chatScore msg b ≤ chatScore msg a) := by
  have hsorted := List.sorted_mergeSort
    (fun a b c h1 h2 => aux_descBy_trans (chatScore msg) a b c h1 h2)
    (fun a b => aux_descBy_total (chatScore msg) a b) corpus
  refine ⟨List.nodup_dedup _, ?_, fun item => rfl, List.mergeSort_perm _ _, ?_, ?_,
    rfl, ?_, ?_⟩
  · intro t
    rw [msgTokens, List.mem_dedup, List.mem_map]
    constructor
    · rintro ⟨w, hw, rfl⟩
      rw [List.mem_filter] at hw
      exact ⟨w, hw.1, by simpa using hw.2, rfl⟩
    · rintro ⟨w, hw, hlen, rfl⟩
      exact ⟨w, List.mem_filter.mpr ⟨hw, by simpa using hlen⟩, rfl⟩
  · exact hsorted.imp (fun hab => by simpa using hab)
  · intro a b hsub heq
    exact List.pair_sublist_mergeSort
      (fun a b c h1 h2 => aux_descBy_trans (chatScore msg) a b c h1 h2)
      (fun a b => aux_descBy_total (chatScore msg) a b)
      (by simp [heq]) hsub
  · have hp : List.Perm corpus (scoreSorted msg corpus) :=
      (List.mergeSort_perm corpus _).symm
    show List.Perm corpus
      ((scoreSorted msg corpus).take 3 ++ (scoreSorted msg corpus).drop 3)
    rw [List.take_append_drop]
    exact hp
  · have hpw : (scoreSorted msg corpus).Pairwise
        (fun a b => decide (chatScore msg b ≤ chatScore msg a) = true) := hsorted
    rw [← List.take_append_drop 3 (scoreSorted msg corpus)] at hpw
    have hsplit := (List.pairwise_append.mp hpw).2.2
    intro a ha b hb
    simpa using hsplit a ha b hb

def w6a : Doc := [("title", Value.vStr "Gamma")]

def w6b : Doc := [("title", Value.vStr "Delta")]

def w6corpus : List Doc := [w6a, w6b]

theorem chat_top3_selection_witness :
    [w6a, w6b].Sublist w6corpus ∧
    chatScore "alpha beta x" w6a = chatScore "alpha beta x" w6b ∧
    [w6a, w6b].Sublist (scoreSorted "alpha beta x" w6corpus) ∧
    "alpha" ∈ msgTokens "alpha beta x" := by
  have H := chat_top3_selection "alpha beta x" w6corpus
  refine ⟨List.Sublist.refl w6corpus, by decide,
    H.2.2.2.2.2.1 w6a w6b (List.Sublist.refl w6corpus) (by decide), ?_⟩
  exact (H.2.1 "alpha").mpr ⟨"alpha", by decide, by decide, by decide⟩

theorem projects_listing_sorted_witness :
    createdKey [("title", Value.vStr "Site")] = "" :=
  (projects_listing_sorted []).2.2 [("title", Value.vStr "Site")] (by decide)

theorem blog_case_listing_sorted_desc_witness :
    createdKey [("author", Value.vStr "Ada")] = "" :=
  (blog_case_listing_sorted_desc [] []).2.2.2.2 [("author", Value.vStr "Ada")] (by decide)
